import Mathlib

/-!
Verification of the in-memory rate limiter of the StockWatchList backend
(`rateLimiter` middleware module).

The JavaScript source is embedded shallowly:

* `WindowEntry` mirrors the per-identifier record `{count, resetTime, firstRequest}`
  stored in the limiter's `Map`.  Timestamps are modelled as natural numbers
  (milliseconds since epoch, as produced by `Date.now()`).
* `Store` models the `Map` as an association list with the `get`/`set`/`delete`
  operations the source uses.
* `RateLimiter.isAllowed` is the pure-state version of the `isAllowed` method:
  it consumes the current time explicitly and returns the decision together
  with the updated request map.
* `RateLimiter.cleanup` is the janitor sweep: it keeps exactly the entries the
  source's `for`-loop does not `delete`.
* `rateLimiterMw` / `strictRateLimiterMw` model the two exported middlewares
  acting on a state holding both limiter instances; response-header emission is
  a response-side effect outside the store model, the admit/deny outcome and
  the store updates are modelled exactly.

`remaining` is an integer because the source computes `maxRequests - count`
with JavaScript numbers, which is negative when `maxRequests = 0`.
-/

namespace StockWatchList

/-- Per-identifier record stored in the limiter's map:
`{count, resetTime, firstRequest}` as created by `isAllowed`. -/
structure WindowEntry where
  count : Nat
  resetTime : Nat
  firstRequest : Nat
  deriving Repr, DecidableEq

/-- The limiter's `Map` of identifier to window entry, as an association list. -/
abbrev Store := List (String × WindowEntry)

/-- `Map.get`: the value stored at the first occurrence of the key, if any. -/
def Store.get : Store → String → Option WindowEntry
  | [], _ => none
  | (k, v) :: rest, k' => if k = k' then some v else Store.get rest k'

/-- `Map.set`: replace the value at the key, or append the binding. -/
def Store.set : Store → String → WindowEntry → Store
  | [], k, v => [(k, v)]
  | (k', v') :: rest, k, v =>
      if k' = k then (k, v) :: rest else (k', v') :: Store.set rest k v

/-- The object returned by `isAllowed`:
`{allowed, remaining, retryAfter?, resetTime?}`. -/
structure Decision where
  allowed : Bool
  remaining : Int
  retryAfter : Option Nat
  resetTime : Option Nat
  deriving Repr, DecidableEq

/-- A `RateLimiter` instance: the immutable configuration (`windowMs`,
`maxRequests`) together with its private `requests` map. -/
structure RateLimiter where
  windowMs : Nat
  maxRequests : Nat
  requests : Store
  deriving Repr, DecidableEq

/-- The janitor sweep: `cleanup` deletes every entry with
`now - data.resetTime > windowMs`; the surviving map keeps the rest. -/
def RateLimiter.cleanup (l : RateLimiter) (now : Nat) : Store :=
  l.requests.filter (fun p => !(decide (l.windowMs < now - p.2.resetTime)))

/-- The `isAllowed(identifier)` method, with `Date.now()` passed explicitly.
Returns the decision and the updated `requests` map (the configuration fields
are never mutated by the source). -/
def RateLimiter.isAllowed (l : RateLimiter) (identifier : String) (now : Nat) :
    Decision × Store :=
  match Store.get l.requests identifier with
  | none =>
      -- First request from this identifier
      (⟨true, (l.maxRequests : Int) - 1, none, none⟩,
       Store.set l.requests identifier ⟨1, now, now⟩)
  | some data =>
      if l.windowMs < now - data.firstRequest then
        -- Window has expired: reset the window
        (⟨true, (l.maxRequests : Int) - 1, none, none⟩,
         Store.set l.requests identifier ⟨1, now, now⟩)
      else if l.maxRequests ≤ data.count then
        -- Limit exceeded: deny without touching the map
        (⟨false, 0,
          some ((l.windowMs - (now - data.firstRequest) + 999) / 1000),
          some (data.firstRequest + l.windowMs)⟩,
         l.requests)
      else
        -- Increment counter
        (⟨true, (l.maxRequests : Int) - (data.count + 1), none, none⟩,
         Store.set l.requests identifier { data with count := data.count + 1 })

/-- Outcome of a middleware invocation: pass the request on, or
short-circuit with an `AppError (message, status)`. -/
inductive MwResult where
  | ok : MwResult
  | throttled (message : String) (status : Nat) : MwResult
  deriving Repr, DecidableEq

/-- The module-level state: the two limiter instances created at load time. -/
structure MiddlewareState where
  general : RateLimiter
  strict : RateLimiter
  deriving Repr, DecidableEq

/-- `generalLimiter = new RateLimiter(15 * 60 * 1000, 100)` with empty map. -/
def generalLimiter : RateLimiter := ⟨15 * 60 * 1000, 100, []⟩

/-- `strictLimiter = new RateLimiter(60 * 1000, 10)` with empty map. -/
def strictLimiter : RateLimiter := ⟨60 * 1000, 10, []⟩

/-- The general `rateLimiter` middleware: consults the general instance only. -/
def rateLimiterMw (st : MiddlewareState) (identifier : String) (now : Nat) :
    MwResult × MiddlewareState :=
  let r := st.general.isAllowed identifier now
  let st' : MiddlewareState :=
    { st with general := { st.general with requests := r.2 } }
  if r.1.allowed then (.ok, st')
  else (.throttled "Too many requests. Please try again later." 429, st')

/-- The HTTP methods the strict middleware applies to. -/
def mutatingMethods : List String := ["POST", "PUT", "PATCH", "DELETE"]

/-- The `strictRateLimiter` middleware: non-mutating methods pass straight
through; mutating methods consult the strict instance only. -/
def strictRateLimiterMw (st : MiddlewareState) (method identifier : String)
    (now : Nat) : MwResult × MiddlewareState :=
  if method ∈ mutatingMethods then
    let r := st.strict.isAllowed identifier now
    let st' : MiddlewareState :=
      { st with strict := { st.strict with requests := r.2 } }
    if r.1.allowed then (.ok, st')
    else (.throttled "Too many write requests. Please slow down." 429, st')
  else (.ok, st)

/-- A sequence of `isAllowed` calls for one identifier at the given times,
threading the map through (the configuration fields are immutable): returns
the decisions in order together with the final map. -/
def runCalls (l : RateLimiter) (identifier : String) :
    List Nat → List Decision × Store
  | [] => ([], l.requests)
  | t :: ts =>
      ((l.isAllowed identifier t).1 ::
         (runCalls ⟨l.windowMs, l.maxRequests, (l.isAllowed identifier t).2⟩
           identifier ts).1,
       (runCalls ⟨l.windowMs, l.maxRequests, (l.isAllowed identifier t).2⟩
         identifier ts).2)

/-- Every entry of the map has `1 ≤ count ≤ maxRequests`. -/
def countInv (l : RateLimiter) : Prop :=
  ∀ p ∈ l.requests, 1 ≤ p.2.count ∧ p.2.count ≤ l.maxRequests

instance countInv.instDecidable (l : RateLimiter) : Decidable (countInv l) := by
  unfold countInv
  infer_instance

/-! ### Association-list lemmas -/

theorem Store.get_set_self (s : Store) (k : String) (v : WindowEntry) :
    Store.get (Store.set s k v) k = some v := by
  induction s with
  | nil => simp [Store.set, Store.get]
  | cons p rest ih =>
      by_cases h : p.1 = k
      · simp [Store.set, Store.get, h]
      · simp [Store.set, Store.get, h, ih]

theorem Store.mem_set (s : Store) (k : String) (v : WindowEntry)
    (p : String × WindowEntry) (hp : p ∈ Store.set s k v) :
    p = (k, v) ∨ p ∈ s := by
  induction s with
  | nil => simpa [Store.set] using hp
  | cons q rest ih =>
      by_cases h : q.1 = k
      · rcases (by simpa [Store.set, h] using hp) with h' | h'
        · exact Or.inl h'
        · exact Or.inr (List.mem_cons_of_mem _ h')
      · rcases (by simpa [Store.set, h] using hp) with h' | h'
        · exact Or.inr (by simp [h'])
        · rcases ih h' with h'' | h''
          · exact Or.inl h''
          · exact Or.inr (List.mem_cons_of_mem _ h'')

theorem Store.get_some_mem (s : Store) (k : String) (e : WindowEntry)
    (h : Store.get s k = some e) : (k, e) ∈ s := by
  induction s with
  | nil => simp [Store.get] at h
  | cons q rest ih =>
      by_cases hk : q.1 = k
      · have : q.2 = e := by simpa [Store.get, hk] using h
        have : q = (k, e) := by
          cases q
          simp_all
        simp [this]
      · exact List.mem_cons_of_mem _ (ih (by simpa [Store.get, hk] using h))

/-- In-window calls against an existing entry `⟨c, t0, t0⟩` with enough
remaining quota are all admitted, the `i`-th with
`remaining = maxRequests - (c + i + 1)`. -/
theorem runCalls_in_window (identifier : String) (t0 : Nat) (ts : List Nat) :
    ∀ (l : RateLimiter) (c : Nat),
      Store.get l.requests identifier = some ⟨c, t0, t0⟩ →
      c + ts.length ≤ l.maxRequests →
      (∀ t ∈ ts, t - t0 ≤ l.windowMs) →
      ∀ i, i < ts.length →
        (runCalls l identifier ts).1[i]? =
          some ⟨true, (l.maxRequests : Int) - ((c + i + 1 : Nat) : Int),
            none, none⟩ := by
  induction ts with
  | nil =>
      intro l c _ _ _ i hi
      simp at hi
  | cons t ts ih =>
      intro l c hget hcap htimes i hi
      have hwin : ¬ (l.windowMs < t - t0) :=
        Nat.not_lt.2 (htimes t (List.mem_cons_self t ts))
      have hcount : ¬ (l.maxRequests ≤ c) := by
        simp only [List.length_cons] at hcap
        omega
      have hstep : l.isAllowed identifier t =
          (⟨true, (l.maxRequests : Int) - ((c + 1 : Nat) : Int), none, none⟩,
           Store.set l.requests identifier ⟨c + 1, t0, t0⟩) := by
        simp [RateLimiter.isAllowed, hget, hwin, hcount]
      match i with
      | 0 =>
          simp [runCalls, hstep]
      | Nat.succ j =>
          have hrec := ih
            ⟨l.windowMs, l.maxRequests,
              Store.set l.requests identifier ⟨c + 1, t0, t0⟩⟩ (c + 1)
            (Store.get_set_self _ _ _)
            (show (c + 1) + ts.length ≤ l.maxRequests by
              simp only [List.length_cons] at hcap
              omega)
            (fun t' ht' => htimes t' (List.mem_cons_of_mem t ht'))
            j (by simpa using hi)
          have harith : (c + 1) + j + 1 = c + Nat.succ j + 1 := by omega
          rw [harith] at hrec
          simpa [runCalls, hstep] using hrec

/-! ### Claim theorems -/

/-- C1: for every identifier absent from the limiter's map, the first
`isAllowed` call returns `allowed = true` and `remaining = maxRequests - 1`
(as an integer, so `-1` when `maxRequests = 0`), and creates the entry
`{count := 1, resetTime := now, firstRequest := now}` — the first request is
admitted without checking the cap, for every `maxRequests` including `0`. -/
theorem first_call_admitted (l : RateLimiter) (identifier : String) (now : Nat)
    (h : Store.get l.requests identifier = none) :
    (l.isAllowed identifier now).1.allowed = true ∧
    (l.isAllowed identifier now).1.remaining = (l.maxRequests : Int) - 1 ∧
    Store.get (l.isAllowed identifier now).2 identifier =
      some ⟨1, now, now⟩ := by
  simp [RateLimiter.isAllowed, h, Store.get_set_self]

/-- Witness for C1, with `maxRequests = 0`: the first call is still admitted
and `remaining = 0 - 1 = -1`. -/
theorem first_call_admitted_witness :
    Store.get (⟨1000, 0, []⟩ : RateLimiter).requests "a" = none ∧
    (((⟨1000, 0, []⟩ : RateLimiter).isAllowed "a" 5).1.allowed = true ∧
     ((⟨1000, 0, []⟩ : RateLimiter).isAllowed "a" 5).1.remaining =
       ((0 : Nat) : Int) - 1 ∧
     Store.get ((⟨1000, 0, []⟩ : RateLimiter).isAllowed "a" 5).2 "a" =
       some ⟨1, 5, 5⟩) :=
  ⟨rfl, first_call_admitted ⟨1000, 0, []⟩ "a" 5 rfl⟩

/-- C4: for an identifier with an existing entry, a call strictly after
`windowStart + windowDuration` replaces the entry with
`{count := 1, windowStart := now}` and returns `allowed = true` with
`remaining = maxRequests - 1`, irrespective of the entry's count (so
irrespective of prior denials). -/
theorem expired_window_resets (l : RateLimiter) (identifier : String)
    (e : WindowEntry) (now : Nat)
    (hget : Store.get l.requests identifier = some e)
    (hexp : e.firstRequest + l.windowMs < now) :
    (l.isAllowed identifier now).1 =
      ⟨true, (l.maxRequests : Int) - 1, none, none⟩ ∧
    Store.get (l.isAllowed identifier now).2 identifier =
      some ⟨1, now, now⟩ := by
  have hcond : l.windowMs < now - e.firstRequest := by omega
  simp [RateLimiter.isAllowed, hget, hcond, Store.get_set_self]

/-- Witness for C4: a full entry (`count = maxRequests`, previously denied
state) is reset at `now = windowStart + windowDuration + 1`. -/
theorem expired_window_resets_witness :
    Store.get (⟨1000, 2, [("a", ⟨2, 0, 0⟩)]⟩ : RateLimiter).requests "a" =
      some ⟨2, 0, 0⟩ ∧
    ((0 : Nat) + 1000 < 1001) ∧
    (((⟨1000, 2, [("a", ⟨2, 0, 0⟩)]⟩ : RateLimiter).isAllowed "a" 1001).1 =
       ⟨true, ((2 : Nat) : Int) - 1, none, none⟩ ∧
     Store.get ((⟨1000, 2, [("a", ⟨2, 0, 0⟩)]⟩ : RateLimiter).isAllowed
         "a" 1001).2 "a" = some ⟨1, 1001, 1001⟩) :=
  ⟨rfl, by omega,
   expired_window_resets ⟨1000, 2, [("a", ⟨2, 0, 0⟩)]⟩ "a" ⟨2, 0, 0⟩ 1001 rfl
     (by decide)⟩

/-- C3, counterexample to the claim as stated: with `windowMs = 1000`,
`maxRequests = 1` and entry `{count := 1, windowStart := 0}`, the call at
`now = 1000` satisfies the claim's hypotheses (`count ≥ maxRequests`,
`now - windowStart ≤ windowDuration`) and is denied, but
`retryAfterSeconds = ceil((1000 - 1000) / 1000) = 0`, which is not positive. -/
theorem denial_retry_after_zero_counterexample :
    (1000 : Nat) - 0 ≤ 1000 ∧
    ((⟨1000, 1, [("a", ⟨1, 0, 0⟩)]⟩ : RateLimiter).isAllowed "a" 1000).1.allowed
      = false ∧
    ((⟨1000, 1, [("a", ⟨1, 0, 0⟩)]⟩ : RateLimiter).isAllowed
        "a" 1000).1.retryAfter = some 0 := by
  refine ⟨by omega, ?_, ?_⟩ <;> rfl

/-- C3 amended: for an entry with `count ≥ maxRequests` whose window has not
expired (`now - windowStart ≤ windowDuration`), `isAllowed` denies without
touching the map: `allowed = false`, `remaining = 0`,
`retryAfterSeconds = ceil((windowDuration - (now - windowStart)) / 1000)` and
`resetAt = windowStart + windowDuration`.  The retry delay is nonnegative, and
positive whenever `now - windowStart < windowDuration`; it is `0` at
`now - windowStart = windowDuration` exactly. -/
theorem over_limit_denied (l : RateLimiter) (identifier : String)
    (e : WindowEntry) (now : Nat)
    (hget : Store.get l.requests identifier = some e)
    (hcount : l.maxRequests ≤ e.count)
    (hwin : now - e.firstRequest ≤ l.windowMs) :
    l.isAllowed identifier now =
      (⟨false, 0, some ((l.windowMs - (now - e.firstRequest) + 999) / 1000),
        some (e.firstRequest + l.windowMs)⟩, l.requests) ∧
    (now - e.firstRequest < l.windowMs →
      0 < (l.windowMs - (now - e.firstRequest) + 999) / 1000) := by
  constructor
  · simp [RateLimiter.isAllowed, hget, Nat.not_lt.2 hwin, hcount]
  · intro h
    omega

/-- Witness for C3 (amended): the second call with `maxRequests = 1`,
`windowMs = 60000`, at `now = 1000`, is denied with
`retryAfter = ceil(59000 / 1000) = 59` (positive). -/
theorem over_limit_denied_witness :
    Store.get (⟨60000, 1, [("a", ⟨1, 0, 0⟩)]⟩ : RateLimiter).requests "a" =
      some ⟨1, 0, 0⟩ ∧
    (1 : Nat) ≤ 1 ∧ (1000 : Nat) - 0 ≤ 60000 ∧
    ((⟨60000, 1, [("a", ⟨1, 0, 0⟩)]⟩ : RateLimiter).isAllowed "a" 1000 =
       (⟨false, 0, some ((60000 - ((1000 : Nat) - 0) + 999) / 1000),
         some ((0 : Nat) + 60000)⟩, [("a", ⟨1, 0, 0⟩)]) ∧
     ((1000 : Nat) - 0 < 60000 →
       0 < (60000 - ((1000 : Nat) - 0) + 999) / 1000)) :=
  ⟨rfl, le_refl 1, by omega,
   over_limit_denied ⟨60000, 1, [("a", ⟨1, 0, 0⟩)]⟩ "a" ⟨1, 0, 0⟩ 1000 rfl
     (le_refl 1) (by decide)⟩

/-- C7: a denied call leaves the map exactly as it was — the deny branch
returns without setting anything, so the identifier's entry and all other
entries are unchanged. -/
theorem denial_leaves_store_unchanged (l : RateLimiter) (identifier : String)
    (now : Nat) (h : (l.isAllowed identifier now).1.allowed = false) :
    (l.isAllowed identifier now).2 = l.requests := by
  unfold RateLimiter.isAllowed at h ⊢
  cases hget : Store.get l.requests identifier with
  | none => simp [hget] at h
  | some data =>
      simp only [hget] at h ⊢
      by_cases hw : l.windowMs < now - data.firstRequest
      · simp [hw] at h
      · by_cases hc : l.maxRequests ≤ data.count
        · simp [hw, hc]
        · simp [hw, hc] at h

/-- Witness for C7: the denied second call with `maxRequests = 1` leaves the
map unchanged. -/
theorem denial_leaves_store_unchanged_witness :
    ((⟨1000, 1, [("a", ⟨1, 0, 0⟩)]⟩ : RateLimiter).isAllowed "a" 10).1.allowed
      = false ∧
    ((⟨1000, 1, [("a", ⟨1, 0, 0⟩)]⟩ : RateLimiter).isAllowed "a" 10).2 =
      (⟨1000, 1, [("a", ⟨1, 0, 0⟩)]⟩ : RateLimiter).requests :=
  ⟨rfl, denial_leaves_store_unchanged ⟨1000, 1, [("a", ⟨1, 0, 0⟩)]⟩ "a" 10 rfl⟩

/-- C5, counterexample to the claim as stated: with `windowMs = 1000` and an
entry with `windowStart = 0`, the sweep at `now = 1500` deletes the entry even
though `now - windowStart = 1500 ≤ 2 * windowDuration = 2000` — the code
deletes as soon as `now - resetTime > windowMs`, and `resetTime` is set to the
window start, so eviction happens one window after the window START, not one
window after its expiry. -/
theorem cleanup_deletes_before_two_windows_counterexample :
    Store.get (⟨1000, 100, [("a", ⟨1, 0, 0⟩)]⟩ : RateLimiter).requests "a" =
      some ⟨1, 0, 0⟩ ∧
    (1500 : Nat) - 0 ≤ 2 * 1000 ∧
    (⟨1000, 100, [("a", ⟨1, 0, 0⟩)]⟩ : RateLimiter).cleanup 1500 = [] := by
  refine ⟨rfl, by omega, ?_⟩
  rfl

/-- C5 amended: the sweep removes exactly the entries with
`now - resetTime > windowMs`.  For every entry whose `resetTime` equals its
window start (which holds for every entry `isAllowed` ever creates), the entry
is deleted by `cleanup` at time `now` iff `now - windowStart > windowDuration`
— i.e. as soon as the window has strictly expired, not one further window
duration later. -/
theorem cleanup_removes_expired (l : RateLimiter) (now : Nat)
    (identifier : String) (e : WindowEntry)
    (hrt : e.resetTime = e.firstRequest) :
    (identifier, e) ∈ l.cleanup now ↔
      (identifier, e) ∈ l.requests ∧ now - e.firstRequest ≤ l.windowMs := by
  simp [RateLimiter.cleanup, List.mem_filter, hrt, Nat.not_lt]

/-- Witness for C5 (amended): an entry one half-window old survives a sweep. -/
theorem cleanup_removes_expired_witness :
    (("a", (⟨1, 0, 0⟩ : WindowEntry)) ∈
        (⟨1000, 100, [("a", ⟨1, 0, 0⟩)]⟩ : RateLimiter).cleanup 500 ↔
      ("a", (⟨1, 0, 0⟩ : WindowEntry)) ∈
          (⟨1000, 100, [("a", ⟨1, 0, 0⟩)]⟩ : RateLimiter).requests ∧
        500 - (⟨1, 0, 0⟩ : WindowEntry).firstRequest ≤ 1000) :=
  cleanup_removes_expired ⟨1000, 100, [("a", ⟨1, 0, 0⟩)]⟩ 500 "a" ⟨1, 0, 0⟩ rfl

/-- C6: the sweep never evicts an entry whose window has not yet fully
expired — every entry (with `resetTime = windowStart`, as `isAllowed` always
creates) satisfying `now - windowStart ≤ windowDuration` is retained — and
once an identifier has been evicted, the next `isAllowed` call for it behaves
exactly as for a never-seen identifier: `allowed = true`,
`remaining = maxRequests - 1`, and a fresh entry with `count = 1`. -/
theorem cleanup_retains_live_entries (l : RateLimiter) (now now2 : Nat)
    (identifier : String) :
    (∀ e : WindowEntry, (identifier, e) ∈ l.requests →
      e.resetTime = e.firstRequest → now - e.firstRequest ≤ l.windowMs →
      (identifier, e) ∈ l.cleanup now) ∧
    (Store.get (l.cleanup now) identifier = none →
      ((⟨l.windowMs, l.maxRequests, l.cleanup now⟩ : RateLimiter).isAllowed
          identifier now2).1 =
        ⟨true, (l.maxRequests : Int) - 1, none, none⟩ ∧
      Store.get ((⟨l.windowMs, l.maxRequests, l.cleanup now⟩ :
          RateLimiter).isAllowed identifier now2).2 identifier =
        some ⟨1, now2, now2⟩) := by
  constructor
  · intro e hmem hrt hlive
    simp only [RateLimiter.cleanup, List.mem_filter, Bool.not_eq_true',
      decide_eq_false_iff_not, Nat.not_lt, hrt]
    exact ⟨hmem, hlive⟩
  · intro hnone
    simp [RateLimiter.isAllowed, hnone, Store.get_set_self]

/-- Witness for C6: a live entry survives the sweep, and after an eviction the
next call is treated as first-seen. -/
theorem cleanup_retains_live_entries_witness :
    (("a", (⟨1, 0, 0⟩ : WindowEntry)) ∈
        (⟨1000, 100, [("a", ⟨1, 0, 0⟩)]⟩ : RateLimiter).cleanup 500) ∧
    (((⟨1000, 100,
          (⟨1000, 100, [("a", ⟨1, 0, 0⟩)]⟩ : RateLimiter).cleanup 5000⟩ :
          RateLimiter).isAllowed "a" 6000).1 =
        ⟨true, ((100 : Nat) : Int) - 1, none, none⟩ ∧
      Store.get ((⟨1000, 100,
          (⟨1000, 100, [("a", ⟨1, 0, 0⟩)]⟩ : RateLimiter).cleanup 5000⟩ :
          RateLimiter).isAllowed "a" 6000).2 "a" = some ⟨1, 6000, 6000⟩) :=
  ⟨(cleanup_retains_live_entries ⟨1000, 100, [("a", ⟨1, 0, 0⟩)]⟩ 500 0 "a").1
      ⟨1, 0, 0⟩ (by simp) rfl (by decide),
   (cleanup_retains_live_entries ⟨1000, 100, [("a", ⟨1, 0, 0⟩)]⟩ 5000 6000
      "a").2 rfl⟩

/-- C8: the limiter instances share no state.  Running the general middleware
leaves the strict instance untouched (and vice versa), so the strict
instance's decision for the same identifier afterwards is exactly what it was
before — exhausting one instance's quota cannot change the other's decision. -/
theorem instances_share_no_counters (st : MiddlewareState)
    (method identifier : String) (now now2 : Nat) :
    (rateLimiterMw st identifier now).2.strict = st.strict ∧
    (strictRateLimiterMw st method identifier now).2.general = st.general ∧
    ((rateLimiterMw st identifier now).2.strict.isAllowed identifier now2) =
      st.strict.isAllowed identifier now2 ∧
    ((strictRateLimiterMw st method identifier now).2.general.isAllowed
        identifier now2) = st.general.isAllowed identifier now2 := by
  have hg : (rateLimiterMw st identifier now).2.strict = st.strict := by
    dsimp only [rateLimiterMw]
    split <;> rfl
  have hs : (strictRateLimiterMw st method identifier now).2.general =
      st.general := by
    dsimp only [strictRateLimiterMw]
    split
    · split <;> rfl
    · rfl
  exact ⟨hg, hs, by rw [hg], by rw [hs]⟩

/-- C9: the strict middleware applies only to state-mutating methods: for any
method other than POST, PUT, PATCH and DELETE it passes the request through
and returns the state unchanged — no strict-limiter entry is read, created or
incremented, and no denial is possible. -/
theorem strict_bypasses_non_mutating (st : MiddlewareState)
    (method identifier : String) (now : Nat) (h : method ∉ mutatingMethods) :
    strictRateLimiterMw st method identifier now = (MwResult.ok, st) := by
  simp [strictRateLimiterMw, h]

/-- Witness for C9: a GET request passes through the strict middleware without
touching a fully-exhausted strict store. -/
theorem strict_bypasses_non_mutating_witness :
    "GET" ∉ mutatingMethods ∧
    strictRateLimiterMw
        ⟨generalLimiter, ⟨60000, 10, [("a", ⟨10, 0, 0⟩)]⟩⟩ "GET" "a" 5 =
      (MwResult.ok, ⟨generalLimiter, ⟨60000, 10, [("a", ⟨10, 0, 0⟩)]⟩⟩) :=
  ⟨by decide,
   strict_bypasses_non_mutating
     ⟨generalLimiter, ⟨60000, 10, [("a", ⟨10, 0, 0⟩)]⟩⟩ "GET" "a" 5
     (by decide)⟩

/-- C2: starting from a never-seen identifier, for any sequence of at most
`maxRequests` calls (`t0` then `ts`) all within `windowDuration` of the first
call's time (which becomes the entry's window start), every call is admitted
and the `i`-th call returns `remaining = maxRequests - (i + 1)` — so
`remaining` strictly decreases by exactly `1` on each successive call and
equals `maxRequests - count` after the increment. -/
theorem sequential_calls_all_allowed (l : RateLimiter) (identifier : String)
    (t0 : Nat) (ts : List Nat)
    (hfresh : Store.get l.requests identifier = none)
    (hlen : ts.length + 1 ≤ l.maxRequests)
    (htimes : ∀ t ∈ ts, t0 ≤ t ∧ t - t0 ≤ l.windowMs) :
    ∀ i, i < ts.length + 1 →
      (runCalls l identifier (t0 :: ts)).1[i]? =
        some ⟨true, (l.maxRequests : Int) - ((i + 1 : Nat) : Int),
          none, none⟩ := by
  intro i hi
  have hstep : l.isAllowed identifier t0 =
      (⟨true, (l.maxRequests : Int) - ((0 + 1 : Nat) : Int), none, none⟩,
       Store.set l.requests identifier ⟨1, t0, t0⟩) := by
    simp [RateLimiter.isAllowed, hfresh]
  match i with
  | 0 =>
      simp [runCalls, hstep]
  | Nat.succ j =>
      have hrec := runCalls_in_window identifier t0 ts
        ⟨l.windowMs, l.maxRequests,
          Store.set l.requests identifier ⟨1, t0, t0⟩⟩ 1
        (Store.get_set_self _ _ _)
        (show 1 + ts.length ≤ l.maxRequests by omega)
        (fun t ht => (htimes t ht).2)
        j (by omega)
      have harith : 1 + j + 1 = Nat.succ j + 1 := by omega
      rw [harith] at hrec
      simpa [runCalls, hstep] using hrec

/-- Witness for C2: with `maxRequests = 3` and `windowMs = 1000`, three calls
at times `0, 400, 900` are all allowed with `remaining = 2, 1, 0`. -/
theorem sequential_calls_all_allowed_witness :
    Store.get (⟨1000, 3, []⟩ : RateLimiter).requests "a" = none ∧
    ([400, 900].length + 1 ≤ 3) ∧
    (∀ i, i < [400, 900].length + 1 →
      (runCalls (⟨1000, 3, []⟩ : RateLimiter) "a" (0 :: [400, 900])).1[i]? =
        some ⟨true, ((3 : Nat) : Int) - ((i + 1 : Nat) : Int), none, none⟩) :=
  ⟨rfl, by decide,
   sequential_calls_all_allowed ⟨1000, 3, []⟩ "a" 0 [400, 900] rfl (by decide)
     (by decide)⟩

/-- C10: for a limiter with `maxRequests ≥ 1`, the per-entry bound
`1 ≤ count ≤ maxRequests` is preserved by every `isAllowed` call and by every
janitor sweep — the counter is only incremented when `count < maxRequests`,
so it never exceeds the cap. -/
theorem count_bounds_preserved (l : RateLimiter) (identifier : String)
    (now : Nat) (hmax : 1 ≤ l.maxRequests) (hinv : countInv l) :
    countInv ⟨l.windowMs, l.maxRequests, (l.isAllowed identifier now).2⟩ ∧
    countInv ⟨l.windowMs, l.maxRequests, l.cleanup now⟩ := by
  constructor
  · intro p hp
    have hp' : p ∈ (l.isAllowed identifier now).2 := hp
    unfold RateLimiter.isAllowed at hp'
    cases hget : Store.get l.requests identifier with
    | none =>
        simp only [hget] at hp'
        rcases Store.mem_set _ _ _ _ hp' with h | h
        · rw [h]
          exact ⟨le_refl 1, hmax⟩
        · exact hinv p h
    | some data =>
        simp only [hget] at hp'
        by_cases hw : l.windowMs < now - data.firstRequest
        · rw [if_pos hw] at hp'
          rcases Store.mem_set _ _ _ _ hp' with h | h
          · rw [h]
            exact ⟨le_refl 1, hmax⟩
          · exact hinv p h
        · by_cases hc : l.maxRequests ≤ data.count
          · rw [if_neg hw, if_pos hc] at hp'
            exact hinv p hp'
          · rw [if_neg hw, if_neg hc] at hp'
            rcases Store.mem_set _ _ _ _ hp' with h | h
            · rw [h]
              exact ⟨Nat.le_add_left 1 data.count,
                Nat.succ_le_of_lt (Nat.lt_of_not_le hc)⟩
            · exact hinv p h
  · intro p hp
    exact hinv p (List.mem_filter.1 hp).1

/-- Witness for C10: a concrete limiter with `maxRequests = 2` and one entry
of count `1` keeps the bound through a call and through a sweep. -/
theorem count_bounds_preserved_witness :
    (1 ≤ (2 : Nat)) ∧ countInv ⟨1000, 2, [("a", ⟨1, 0, 0⟩)]⟩ ∧
    (countInv ⟨1000, 2,
        ((⟨1000, 2, [("a", ⟨1, 0, 0⟩)]⟩ : RateLimiter).isAllowed "a" 5).2⟩ ∧
     countInv ⟨1000, 2,
        (⟨1000, 2, [("a", ⟨1, 0, 0⟩)]⟩ : RateLimiter).cleanup 5⟩) :=
  ⟨by decide, by decide,
   count_bounds_preserved ⟨1000, 2, [("a", ⟨1, 0, 0⟩)]⟩ "a" 5 (by decide)
     (by decide)⟩

end StockWatchList
